import Mathlib

/-!
Verification of the semantic guide-retrieval core of `steam-mcp-server`
(`src/steam_mcp_server/server.py`, tool `fetch_steam_guide`).

Shallow embedding.  The external collaborators are modelled as inputs:

* the HTTP fetch and HTML extraction are a parameter
  `page : Except String (Option (List GuideSection))` — `.error e` is a
  raised request exception, `.ok none` is an absent
  `div.guide.subSections` container, `.ok (some secs)` is the ordered
  list of extracted `subSection detailBox` elements;
* the sentence-embedding model is a parameter
  `embed : String → List ℚ` (the source model is deterministic per the
  spec's Embedding Provider guarantee, so a function);
* FAISS availability (the `try: import faiss` / `faiss is None` check)
  is a Boolean parameter `faissAvailable`;
* `faiss.IndexFlatL2.search` for a single query vector is modelled by
  `flatSearch`, following FAISS's documented contract for a flat L2
  index: exhaustive squared-L2 scan, the `k` nearest returned in
  ascending distance order, and — when the index holds fewer than `k`
  vectors — the result padded out to length `k` with label `-1` and
  distance `FLT_MAX`.  The relative order FAISS gives to candidates at
  exactly equal distance is an internal detail of its heap selection
  and is not documented; `flatSearch` uses index order there, and no
  theorem below relies on that choice for a claim about ties.

Python list indexing (`sections[idx]`, where `idx` may be the FAISS
padding label `-1`) is modelled by `pyGet`, including the negative-index
wraparound and the `IndexError` outside `[-len, len)`.

The numbers carried by the model are exact rationals; the source
computes with 32-bit floats.  All claims proved here are structural
(which branch runs, which sections are returned, in which order, how
they are formatted), not about rounding of a particular distance value.
-/

namespace SteamMCP

/-- One extracted guide section: optional `subSectionTitle` text and
optional `subSectionDesc` text (either `find` in the source may return
`None`). -/
structure GuideSection where
  title : Option String
  body : Option String
  deriving Repr, DecidableEq

/-- Text of one section as built in the source:
`text = (title.get_text(strip=True) + "\n") if title else ""` followed by
`text += (body.get_text("\n", strip=True) if body else '')`. -/
def sectionText (s : GuideSection) : String :=
  (match s.title with
   | some t => t ++ "\n"
   | none => "") ++
  (match s.body with
   | some b => b
   | none => "")

/-- `threshold_chars = 20000` in the source. -/
def threshold_chars : Nat := 20000

/-- `top_k = 5` in the source. -/
def top_k : Nat := 5

/-- The message returned when the sections container is absent. -/
def noSubsectionsMsg (guide_id : String) : String :=
  "Info: No subsections found for guide ID " ++ guide_id ++ "."

/-- The message returned when `faiss is None` and search is needed. -/
def faissMissingMsg : String :=
  "Error: FAISS library is required for large-guide search but is not installed."

/-- Largest finite 32-bit float, the distance FAISS pads results with
when the index holds fewer than `k` vectors: `(2 - 2 ^ (-23)) * 2 ^ 127`. -/
def FLT_MAX : ℚ := 2 ^ 128 - 2 ^ 104

/-- Squared Euclidean distance between two vectors (the metric of
`faiss.IndexFlatL2`; trailing coordinates of the longer vector are
ignored — dimensions agree in every call made by the model). -/
def l2sq (u v : List ℚ) : ℚ :=
  ((List.zip u v).map (fun p => (p.1 - p.2) ^ 2)).sum

/-- Comparison used to rank scored candidates: ascending distance,
candidates at equal distance kept in index order (see the header note
on FAISS tie order). -/
def searchLE (a b : ℚ × Int) : Bool :=
  decide (a.1 < b.1 ∨ (a.1 = b.1 ∧ a.2 ≤ b.2))

/-- Model of `index.add(embeddings)` followed by
`index.search(q_emb.reshape(1, -1), k)` on a fresh `faiss.IndexFlatL2`:
the `k` nearest stored vectors as `(distance, label)` pairs in ascending
distance order, padded with `(FLT_MAX, -1)` when fewer than `k` vectors
are stored. -/
def flatSearch (embs : List (List ℚ)) (q : List ℚ) (k : Nat) : List (ℚ × Int) :=
  let scored := (List.range embs.length).map (fun i => (l2sq q (embs.getD i []), (i : Int)))
  (scored.mergeSort searchLE).take k ++ List.replicate (k - embs.length) (FLT_MAX, -1)

/-- Round a rational to the nearest integer, ties to even (the rounding
of Python float formatting). -/
def roundHalfEven (q : ℚ) : Int :=
  if q - Rat.floor q < 1 / 2 then Rat.floor q
  else if q - Rat.floor q > 1 / 2 then Rat.floor q + 1
  else if Rat.floor q % 2 = 0 then Rat.floor q else Rat.floor q + 1

/-- A natural number below 100 printed as exactly two digits. -/
def pad2 (m : Nat) : String :=
  (if m < 10 then "0" else "") ++ toString m

/-- Model of the Python format `f"{q:.2f}"`: the value rounded to two
decimal places and printed with exactly two digits after the point. -/
def fmt2 (q : ℚ) : String :=
  (if roundHalfEven (q * 100) < 0 then "-" else "") ++
    toString ((roundHalfEven (q * 100)).natAbs / 100) ++ "." ++
    pad2 ((roundHalfEven (q * 100)).natAbs % 100)

/-- Python list indexing `xs[i]` with an `Int` index: negative indices
wrap from the end, and an index outside `[-len, len)` raises
`IndexError`. -/
def pyGet (xs : List String) (i : Int) : Except String String :=
  if h : 0 ≤ (if i < 0 then i + xs.length else i) ∧
      (if i < 0 then i + xs.length else i).toNat < xs.length then
    .ok (xs.get ⟨(if i < 0 then i + xs.length else i).toNat, h.2⟩)
  else .error "list index out of range"

/-- One formatted result entry:
`f"[Score: {dist:.2f}]\n{sections[idx]}"`. -/
def scoreEntry (texts : List String) (p : ℚ × Int) : Except String String :=
  match pyGet texts p.2 with
  | .ok t => .ok ("[Score: " ++ fmt2 p.1 ++ "]\n" ++ t)
  | .error e => .error e

/-- `full_text = "\n\n".join(sections)` over the extracted section
texts. -/
def fullText (secs : List GuideSection) : String :=
  String.intercalate "\n\n" (secs.map sectionText)

/-- Outcome of one run of the body of `fetch_steam_guide` up to (and
excluding) the outer `try/except`: the value returned or the exception
raised, plus instrumentation counting calls to
`_embedding_model.encode` and to `index.search`. -/
structure RunOut where
  result : Except String String
  embedCalls : Nat
  indexQueries : Nat
  deriving Repr

/-- The body of `fetch_steam_guide` (source lines 248–299): container
check, section extraction, threshold decision, FAISS availability
check, embedding, flat L2 search, and result formatting. -/
def fetchBody (embed : String → List ℚ) (faissAvailable : Bool)
    (page : Except String (Option (List GuideSection)))
    (guide_id query : String) : RunOut :=
  match page with
  | .error e => ⟨.error e, 0, 0⟩
  | .ok none => ⟨.ok (noSubsectionsMsg guide_id), 0, 0⟩
  | .ok (some secs) =>
    let texts := secs.map sectionText
    let full_text := String.intercalate "\n\n" texts
    if full_text.length ≤ threshold_chars then ⟨.ok full_text, 0, 0⟩
    else if faissAvailable = false then ⟨.ok faissMissingMsg, 0, 0⟩
    else
      let embeddings := texts.map embed
      let q_emb := embed query
      let pairs := flatSearch embeddings q_emb top_k
      match pairs.mapM (scoreEntry texts) with
      | .ok results => ⟨.ok (String.intercalate "\n\n---\n\n" results), 2, 1⟩
      | .error e => ⟨.error e, 2, 1⟩

/-- The tool `fetch_steam_guide`: the body's value, with any raised
exception converted by the outer `except` into the textual message
`f"Error fetching guide: {e}"`. -/
def fetch_steam_guide (embed : String → List ℚ) (faissAvailable : Bool)
    (page : Except String (Option (List GuideSection)))
    (guide_id query : String) : String :=
  match (fetchBody embed faissAvailable page guide_id query).result with
  | .ok s => s
  | .error e => "Error fetching guide: " ++ e

/-- A string ends in a decimal point followed by exactly two further
characters ("formatted to two decimal places"). -/
def hasTwoDecimals (s : String) : Prop :=
  ∃ a b : String, s = a ++ "." ++ b ∧ b.length = 2

/-- The indexed-search tail of `fetchBody` (embedding of all sections,
embedding of the query, flat L2 search, entry formatting), factored out
so the branch can be reasoned about on its own.  `fetchBody` on the
search branch is proved equal to this. -/
def indexedRun (embed : String → List ℚ) (secs : List GuideSection) (query : String) : RunOut :=
  match (flatSearch ((secs.map sectionText).map embed) (embed query) top_k).mapM
      (scoreEntry (secs.map sectionText)) with
  | .ok results => ⟨.ok (String.intercalate "\n\n---\n\n" results), 2, 1⟩
  | .error e => ⟨.error e, 2, 1⟩

/-- Total form of one formatted result entry, defined for every label
the search can report (a valid index, or the padding label `-1`, which
Python indexing resolves to the last section). -/
def entryStr (texts : List String) (p : ℚ × Int) : String :=
  "[Score: " ++ fmt2 p.1 ++ "]\n" ++
    texts.getD (if p.2 < 0 then p.2 + texts.length else p.2).toNat ""

/-- A 20001-character section body: one character above the threshold. -/
def bigBody : String := String.mk (List.replicate 20001 'a')

/-- A 20002-character section body. -/
def bigBody2 : String := String.mk (List.replicate 20002 'b')

/-- A document with a single untitled section whose body alone exceeds
the threshold. -/
def oneSec : List GuideSection := [⟨none, some bigBody⟩]

/-- A document with two untitled oversized sections. -/
def twoSecs : List GuideSection := [⟨none, some bigBody⟩, ⟨none, some bigBody2⟩]

/-- A concrete deterministic embedding used for witnesses: a text maps
to the one-dimensional vector holding its length. -/
def embedLen : String → List ℚ := fun s => [(s.length : ℚ)]

/-! ### Helper lemmas -/

theorem bigBody_length : bigBody.length = 20001 := by
  rw [bigBody, show (String.mk (List.replicate 20001 'a')).length =
    (List.replicate 20001 'a').length from rfl, List.length_replicate]

theorem bigBody2_length : bigBody2.length = 20002 := by
  rw [bigBody2, show (String.mk (List.replicate 20002 'b')).length =
    (List.replicate 20002 'b').length from rfl, List.length_replicate]

theorem fullText_oneSec : fullText oneSec = bigBody := rfl

theorem fullText_twoSecs : fullText twoSecs = bigBody ++ "\n\n" ++ bigBody2 := rfl

theorem fullText_oneSec_big : threshold_chars < (fullText oneSec).length := by
  rw [fullText_oneSec, bigBody_length]; norm_num [threshold_chars]

theorem fullText_twoSecs_big : threshold_chars < (fullText twoSecs).length := by
  rw [fullText_twoSecs, String.length_append, String.length_append,
    bigBody_length, bigBody2_length]
  norm_num [threshold_chars]

theorem fetchBody_small (embed : String → List ℚ) (faiss : Bool) (secs : List GuideSection)
    (gid q : String) (h : (fullText secs).length ≤ threshold_chars) :
    fetchBody embed faiss (.ok (some secs)) gid q = ⟨.ok (fullText secs), 0, 0⟩ := by
  simp only [fetchBody, fullText] at h ⊢
  rw [if_pos h]

theorem fetchBody_faiss_missing (embed : String → List ℚ) (secs : List GuideSection)
    (gid q : String) (h : threshold_chars < (fullText secs).length) :
    fetchBody embed false (.ok (some secs)) gid q = ⟨.ok faissMissingMsg, 0, 0⟩ := by
  simp only [fetchBody, fullText] at h ⊢
  rw [if_neg (not_le.mpr h)]
  simp

theorem fetchBody_indexed (embed : String → List ℚ) (secs : List GuideSection)
    (gid q : String) (h : threshold_chars < (fullText secs).length) :
    fetchBody embed true (.ok (some secs)) gid q = indexedRun embed secs q := by
  simp only [fetchBody, fullText, indexedRun] at h ⊢
  rw [if_neg (not_le.mpr h)]
  simp

theorem searchLE_trans (a b c : ℚ × Int) (h1 : searchLE a b = true) (h2 : searchLE b c = true) :
    searchLE a c = true := by
  simp only [searchLE, decide_eq_true_eq] at h1 h2 ⊢
  rcases h1 with h1 | ⟨h1e, h1i⟩
  · rcases h2 with h2 | ⟨h2e, h2i⟩
    · exact Or.inl (h1.trans h2)
    · exact Or.inl (h2e ▸ h1)
  · rcases h2 with h2 | ⟨h2e, h2i⟩
    · exact Or.inl (h1e.trans_lt h2)
    · exact Or.inr ⟨h1e.trans h2e, h1i.trans h2i⟩

theorem searchLE_total (a b : ℚ × Int) : (searchLE a b || searchLE b a) = true := by
  rw [Bool.or_eq_true]
  simp only [searchLE, decide_eq_true_eq]
  rcases lt_trichotomy a.1 b.1 with h | h | h
  · exact Or.inl (Or.inl h)
  · rcases le_total a.2 b.2 with hi | hi
    · exact Or.inl (Or.inr ⟨h, hi⟩)
    · exact Or.inr (Or.inr ⟨h.symm, hi⟩)
  · exact Or.inr (Or.inl h)

theorem searchLE_fst_le (a b : ℚ × Int) (h : searchLE a b = true) : a.1 ≤ b.1 := by
  simp only [searchLE, decide_eq_true_eq] at h
  rcases h with h | ⟨he, _⟩
  · exact le_of_lt h
  · exact le_of_eq he

theorem flatSearch_mem (embs : List (List ℚ)) (q : List ℚ) (k : Nat) (p : ℚ × Int)
    (hp : p ∈ flatSearch embs q k) :
    (0 ≤ p.2 ∧ p.2.toNat < embs.length ∧ p.1 = l2sq q (embs.getD p.2.toNat [])) ∨
      (p = (FLT_MAX, -1) ∧ embs.length < k) := by
  simp only [flatSearch] at hp
  rcases List.mem_append.1 hp with h | h
  · left
    have h2 := List.mem_of_mem_take h
    rw [List.mem_mergeSort] at h2
    obtain ⟨i, hi, rfl⟩ := List.mem_map.1 h2
    rw [List.mem_range] at hi
    exact ⟨Int.ofNat_nonneg i, by simpa using hi, by simp⟩
  · right
    have h2 := List.mem_replicate.1 h
    exact ⟨h2.2, Nat.lt_of_sub_ne_zero h2.1⟩

theorem flatSearch_fst_sorted (embs : List (List ℚ)) (q : List ℚ) (k : Nat)
    (hb : ∀ e ∈ embs, l2sq q e ≤ FLT_MAX) :
    List.Sorted (· ≤ ·) ((flatSearch embs q k).map Prod.fst) := by
  simp only [flatSearch, List.map_append, List.map_replicate]
  refine List.pairwise_append.2 ⟨?_, ?_, ?_⟩
  · have hp := List.sorted_mergeSort searchLE_trans searchLE_total
      ((List.range embs.length).map (fun i => (l2sq q (embs.getD i []), (i : Int))))
    have hp2 := List.Pairwise.sublist (List.take_sublist k _) hp
    exact List.pairwise_map.2 (hp2.imp (fun h => searchLE_fst_le _ _ h))
  · rw [List.pairwise_replicate]
    exact Or.inr le_rfl
  · intro a ha b hb2
    rw [List.mem_replicate] at hb2
    rw [hb2.2]
    obtain ⟨p, hpmem, rfl⟩ := List.mem_map.1 ha
    have h2 := List.mem_of_mem_take hpmem
    rw [List.mem_mergeSort] at h2
    obtain ⟨i, hi, rfl⟩ := List.mem_map.1 h2
    rw [List.mem_range] at hi
    have hmem : embs.getD i [] ∈ embs := by
      rw [List.getD_eq_getElem _ _ hi]
      exact List.getElem_mem hi
    exact hb _ hmem

theorem scoreEntry_eq_ok (texts : List String) (p : ℚ × Int)
    (hv : (0 ≤ p.2 ∧ p.2.toNat < texts.length) ∨ (p.2 = -1 ∧ texts ≠ [])) :
    scoreEntry texts p = .ok (entryStr texts p) := by
  rcases hv with ⟨h0, hlt⟩ | ⟨hm1, hne⟩
  · have hj : ¬ (p.2 < 0) := not_lt.2 h0
    simp only [scoreEntry, pyGet, entryStr, if_neg hj]
    rw [dif_pos ⟨h0, hlt⟩]
    rw [List.getD_eq_getElem _ _ hlt]
    rfl
  · have hlen : texts.length ≠ 0 := fun h => hne (List.eq_nil_of_length_eq_zero h)
    have hj : (if p.2 < 0 then p.2 + texts.length else p.2) = (texts.length : Int) - 1 := by
      rw [if_pos (by rw [hm1]; norm_num), hm1]; ring
    have h0 : 0 ≤ (texts.length : Int) - 1 := by omega
    have hlt : ((texts.length : Int) - 1).toNat < texts.length := by omega
    simp only [scoreEntry, pyGet, entryStr, hj]
    rw [dif_pos ⟨h0, hlt⟩]
    rw [List.getD_eq_getElem _ _ hlt]
    rfl

theorem mapM_ok_of_forall {α β : Type} (f : α → Except String β) (g : α → β) (l : List α)
    (h : ∀ a ∈ l, f a = .ok (g a)) : l.mapM f = .ok (l.map g) := by
  induction l with
  | nil => rfl
  | cons a l ih =>
    rw [List.mapM_cons, h a (List.mem_cons_self a l), List.map_cons,
      ih (fun x hx => h x (List.mem_cons_of_mem _ hx))]
    rfl

theorem indexedRun_ok (embed : String → List ℚ) (secs : List GuideSection) (query : String)
    (hne : secs ≠ []) :
    indexedRun embed secs query =
      ⟨.ok (String.intercalate "\n\n---\n\n"
        ((flatSearch ((secs.map sectionText).map embed) (embed query) top_k).map
          (entryStr (secs.map sectionText)))), 2, 1⟩ := by
  have hall : ∀ p ∈ flatSearch ((secs.map sectionText).map embed) (embed query) top_k,
      scoreEntry (secs.map sectionText) p = .ok (entryStr (secs.map sectionText) p) := by
    intro p hp
    rcases flatSearch_mem _ _ _ _ hp with ⟨h0, hlt, _⟩ | ⟨rfl, _⟩
    · exact scoreEntry_eq_ok _ _ (Or.inl ⟨h0, by simpa using hlt⟩)
    · exact scoreEntry_eq_ok _ _ (Or.inr ⟨rfl, by simpa using hne⟩)
  simp only [indexedRun]
  rw [mapM_ok_of_forall _ _ _ hall]

theorem pad2_length : ∀ m : Nat, m < 100 → (pad2 m).length = 2 := by decide

theorem fmt2_twoDecimals (q : ℚ) : hasTwoDecimals (fmt2 q) :=
  ⟨(if roundHalfEven (q * 100) < 0 then "-" else "") ++
      toString ((roundHalfEven (q * 100)).natAbs / 100),
    pad2 ((roundHalfEven (q * 100)).natAbs % 100), rfl,
    pad2_length _ (Nat.mod_lt _ (by norm_num))⟩

/-! ### Claim theorems -/

/-- Claim C1: for every document whose full concatenated text (title
line, if present, followed by body, sections joined by a blank-line
separator) has length at most `threshold_chars` = 20000, the tool
returns exactly that concatenation, for every query string and whether
or not FAISS is available, and the run makes zero embedding calls and
zero index queries. -/
theorem retrieve_small_doc_full_text (embed : String → List ℚ) (faiss : Bool)
    (secs : List GuideSection) (gid query : String)
    (h : (fullText secs).length ≤ threshold_chars) :
    fetch_steam_guide embed faiss (.ok (some secs)) gid query = fullText secs ∧
    (fetchBody embed faiss (.ok (some secs)) gid query).embedCalls = 0 ∧
    (fetchBody embed faiss (.ok (some secs)) gid query).indexQueries = 0 := by
  simp only [fetch_steam_guide]
  rw [fetchBody_small _ _ _ _ _ h]
  exact ⟨rfl, rfl, rfl⟩

/-- Witness for C1 at a concrete small document and query. -/
theorem retrieve_small_doc_full_text_witness :
    (fullText [⟨some "T", some "b"⟩, ⟨none, some "c"⟩]).length ≤ threshold_chars ∧
    (fetch_steam_guide (fun _ => [0]) true
        (.ok (some [⟨some "T", some "b"⟩, ⟨none, some "c"⟩])) "g" "q" =
      fullText [⟨some "T", some "b"⟩, ⟨none, some "c"⟩] ∧
    (fetchBody (fun _ => [0]) true
        (.ok (some [⟨some "T", some "b"⟩, ⟨none, some "c"⟩])) "g" "q").embedCalls = 0 ∧
    (fetchBody (fun _ => [0]) true
        (.ok (some [⟨some "T", some "b"⟩, ⟨none, some "c"⟩])) "g" "q").indexQueries = 0) :=
  ⟨by decide, retrieve_small_doc_full_text _ _ _ _ _ (by decide)⟩

/-- Claim C2 (code evaluation at the failing input): a document with a
single oversized section, searched with `top_k` = 5, yields five result
entries — the lone section once with its true score and then four more
times via the FAISS padding label `-1`, which Python list indexing
resolves to the same (last) section, each padding entry scored
`FLT_MAX` — instead of the `min(top_k, section_count) = 1` distinct
entries the claim requires. -/
theorem retrieve_topk_padding_eval :
    fetch_steam_guide (fun _ => [0]) true (.ok (some oneSec)) "g" "q" =
      String.intercalate "\n\n---\n\n"
        ["[Score: " ++ fmt2 0 ++ "]\n" ++ bigBody,
         "[Score: " ++ fmt2 FLT_MAX ++ "]\n" ++ bigBody,
         "[Score: " ++ fmt2 FLT_MAX ++ "]\n" ++ bigBody,
         "[Score: " ++ fmt2 FLT_MAX ++ "]\n" ++ bigBody,
         "[Score: " ++ fmt2 FLT_MAX ++ "]\n" ++ bigBody] ∧
    min top_k oneSec.length = 1 := by
  constructor
  · simp only [fetch_steam_guide]
    rw [fetchBody_indexed _ _ _ _ fullText_oneSec_big]
    have h1 : oneSec.map sectionText = [bigBody] := rfl
    have h2 : flatSearch ([bigBody].map (fun _ => [(0 : ℚ)])) [0] top_k =
        [(0, 0), (FLT_MAX, -1), (FLT_MAX, -1), (FLT_MAX, -1), (FLT_MAX, -1)] := by
      with_unfolding_all rfl
    simp only [indexedRun, h1]
    rw [h2]
    rfl
  · rfl

/-- Claim C3: when the document's text exceeds the threshold and FAISS
is unavailable, the tool returns the dependency-missing error message —
which is neither the full document text nor the empty string. -/
theorem retrieve_faiss_unavailable (embed : String → List ℚ) (secs : List GuideSection)
    (gid query : String) (h : threshold_chars < (fullText secs).length) :
    fetch_steam_guide embed false (.ok (some secs)) gid query = faissMissingMsg ∧
    faissMissingMsg ≠ fullText secs ∧ faissMissingMsg ≠ "" := by
  refine ⟨?_, ?_, by decide⟩
  · simp only [fetch_steam_guide]
    rw [fetchBody_faiss_missing _ _ _ _ h]
  · intro he
    have hl : faissMissingMsg.length = (fullText secs).length := by rw [he]
    rw [show faissMissingMsg.length = 77 from by decide] at hl
    simp only [threshold_chars] at h
    omega

/-- Witness for C3 at a concrete oversized document. -/
theorem retrieve_faiss_unavailable_witness :
    threshold_chars < (fullText oneSec).length ∧
    (fetch_steam_guide (fun _ => [0]) false (.ok (some oneSec)) "g" "q" = faissMissingMsg ∧
    faissMissingMsg ≠ fullText oneSec ∧ faissMissingMsg ≠ "") :=
  ⟨fullText_oneSec_big, retrieve_faiss_unavailable _ _ _ _ fullText_oneSec_big⟩

/-- Claim C4 (counterexample): on a document extracted with zero
sections the tool does not report the empty-document condition — it
returns the empty string through the full-text branch, which is not the
"no subsections found" message. -/
theorem empty_document_returns_empty_string :
    fetch_steam_guide (fun _ => [0]) true (.ok (some ([] : List GuideSection))) "g" "q" = "" ∧
    ("" : String) ≠ noSubsectionsMsg "g" :=
  ⟨rfl, by decide⟩

/-- Claim C4 (amended): the "no subsections found" report fires exactly
when the sections container is absent from the fetched page; a present
container with zero section boxes instead flows through the size check
and returns the empty full text. -/
theorem no_container_vs_empty_sections (embed : String → List ℚ) (faiss : Bool)
    (gid query : String) :
    fetch_steam_guide embed faiss (.ok none) gid query = noSubsectionsMsg gid ∧
    fetch_steam_guide embed faiss (.ok (some [])) gid query = "" :=
  ⟨rfl, rfl⟩

/-- Claim C5: in indexed-search mode (oversized document, FAISS
available) the output is the list of entries joined by the delimiter
`"\n\n---\n\n"`, each entry carrying its distance score formatted with
`fmt2`; the distances appear in ascending order, and every formatted
score has exactly two digits after the decimal point.  The hypothesis
`hb` states that every section's distance to the query fits below
`FLT_MAX`, which always holds for the source's 32-bit float
distances. -/
theorem indexed_mode_format_sorted (embed : String → List ℚ) (secs : List GuideSection)
    (gid query : String) (h : threshold_chars < (fullText secs).length)
    (hb : ∀ e ∈ (secs.map sectionText).map embed, l2sq (embed query) e ≤ FLT_MAX) :
    fetch_steam_guide embed true (.ok (some secs)) gid query =
      String.intercalate "\n\n---\n\n"
        ((flatSearch ((secs.map sectionText).map embed) (embed query) top_k).map
          (entryStr (secs.map sectionText))) ∧
    List.Sorted (· ≤ ·)
      ((flatSearch ((secs.map sectionText).map embed) (embed query) top_k).map Prod.fst) ∧
    ∀ p ∈ flatSearch ((secs.map sectionText).map embed) (embed query) top_k,
      hasTwoDecimals (fmt2 p.1) := by
  have hne : secs ≠ [] := by
    intro he
    subst he
    exact absurd h (by decide)
  refine ⟨?_, flatSearch_fst_sorted _ _ _ hb, fun p _ => fmt2_twoDecimals p.1⟩
  simp only [fetch_steam_guide]
  rw [fetchBody_indexed _ _ _ _ h, indexedRun_ok _ _ _ hne]

set_option maxRecDepth 100000 in
/-- Witness for C5 at a concrete oversized two-section document. -/
theorem indexed_mode_format_sorted_witness :
    threshold_chars < (fullText twoSecs).length ∧
    (∀ e ∈ (twoSecs.map sectionText).map embedLen, l2sq (embedLen "q") e ≤ FLT_MAX) ∧
    (fetch_steam_guide embedLen true (.ok (some twoSecs)) "g" "q" =
      String.intercalate "\n\n---\n\n"
        ((flatSearch ((twoSecs.map sectionText).map embedLen) (embedLen "q") top_k).map
          (entryStr (twoSecs.map sectionText))) ∧
    List.Sorted (· ≤ ·)
      ((flatSearch ((twoSecs.map sectionText).map embedLen) (embedLen "q") top_k).map Prod.fst) ∧
    ∀ p ∈ flatSearch ((twoSecs.map sectionText).map embedLen) (embedLen "q") top_k,
      hasTwoDecimals (fmt2 p.1)) := by
  have h2 : (twoSecs.map sectionText).map embedLen = [[(20001 : ℚ)], [(20002 : ℚ)]] := by
    rw [show twoSecs.map sectionText = [bigBody, bigBody2] from rfl]
    simp only [List.map_cons, List.map_nil, embedLen, bigBody_length, bigBody2_length]
    norm_num
  have hb : ∀ e ∈ (twoSecs.map sectionText).map embedLen, l2sq (embedLen "q") e ≤ FLT_MAX := by
    rw [h2, show embedLen "q" = [(1 : ℚ)] from rfl]
    intro e he
    rcases List.mem_cons.1 he with rfl | he2
    · with_unfolding_all decide
    · rcases List.mem_cons.1 he2 with rfl | he3
      · with_unfolding_all decide
      · exact absurd he3 (List.not_mem_nil e)
  exact ⟨fullText_twoSecs_big, hb,
    indexed_mode_format_sorted embedLen twoSecs "g" "q" fullText_twoSecs_big hb⟩

/-- Claim C6: with embedding functions that agree on every input (a
deterministic model queried twice), two runs on the same document and
query produce the same output string. -/
theorem retrieve_deterministic (e1 e2 : String → List ℚ) (faiss : Bool)
    (page : Except String (Option (List GuideSection))) (gid query : String)
    (h : ∀ s, e1 s = e2 s) :
    fetch_steam_guide e1 faiss page gid query = fetch_steam_guide e2 faiss page gid query := by
  have he : e1 = e2 := funext h
  rw [he]

/-- Witness for C6 at a concrete embedding, document and query. -/
theorem retrieve_deterministic_witness :
    (∀ s : String, (fun _ : String => [(0 : ℚ)]) s = (fun _ : String => [(0 : ℚ)]) s) ∧
    fetch_steam_guide (fun _ => [0]) true (.ok (some [⟨some "T", some "b"⟩])) "g" "q" =
      fetch_steam_guide (fun _ => [0]) true (.ok (some [⟨some "T", some "b"⟩])) "g" "q" :=
  ⟨fun _ => rfl, retrieve_deterministic _ _ _ _ _ _ (fun _ => rfl)⟩

/-- Claim C8 (counterexample): for a two-section oversized document
searched with `top_k` = 5, the nearest-neighbor query reports the label
list `[0, 1, -1, -1, -1]`: the label `-1` is not the index of any
section (refuting "each index position returned by a query maps back to
Section i"), and the rendered output repeats the last section's text
for every padding label. -/
theorem index_mapping_padding_counterexample :
    ((flatSearch ((twoSecs.map sectionText).map embedLen) (embedLen "q") top_k).map
        Prod.snd) = [0, 1, -1, -1, -1] ∧
    ¬ (∀ i ∈ (flatSearch ((twoSecs.map sectionText).map embedLen) (embedLen "q") top_k).map
        Prod.snd, 0 ≤ i ∧ i.toNat < twoSecs.length) ∧
    fetch_steam_guide embedLen true (.ok (some twoSecs)) "g" "q" =
      String.intercalate "\n\n---\n\n"
        ["[Score: " ++ fmt2 400000000 ++ "]\n" ++ bigBody,
         "[Score: " ++ fmt2 400040001 ++ "]\n" ++ bigBody2,
         "[Score: " ++ fmt2 FLT_MAX ++ "]\n" ++ bigBody2,
         "[Score: " ++ fmt2 FLT_MAX ++ "]\n" ++ bigBody2,
         "[Score: " ++ fmt2 FLT_MAX ++ "]\n" ++ bigBody2] := by
  have h1 : twoSecs.map sectionText = [bigBody, bigBody2] := rfl
  have h2 : [bigBody, bigBody2].map embedLen = [[(20001 : ℚ)], [(20002 : ℚ)]] := by
    simp only [List.map_cons, List.map_nil, embedLen, bigBody_length, bigBody2_length]
    norm_num
  have h3 : embedLen "q" = [(1 : ℚ)] := by
    simp only [embedLen]
    rfl
  have h4 : flatSearch [[(20001 : ℚ)], [(20002 : ℚ)]] [(1 : ℚ)] top_k =
      [(400000000, 0), (400040001, 1), (FLT_MAX, -1), (FLT_MAX, -1), (FLT_MAX, -1)] := by
    with_unfolding_all rfl
  refine ⟨?_, ?_, ?_⟩
  · rw [h1, h2, h3, h4]
    rfl
  · intro hall
    have := hall (-1) (by rw [h1, h2, h3, h4]; decide)
    exact absurd this.1 (by decide)
  · simp only [fetch_steam_guide]
    rw [fetchBody_indexed _ _ _ _ fullText_twoSecs_big]
    simp only [indexedRun, h1]
    rw [h2, h3, h4]
    rfl

/-- Claim C8 (amended): in indexed-search mode the number of embeddings
equals the number of sections, and every search result whose reported
label is non-negative is rendered with exactly the section text at that
label; only the padding label `-1` (emitted when `top_k` exceeds the
section count) escapes this mapping. -/
theorem embeddings_count_and_index_mapping (embed : String → List ℚ)
    (secs : List GuideSection) (query : String)
    (_h : threshold_chars < (fullText secs).length) :
    ((secs.map sectionText).map embed).length = secs.length ∧
    ∀ p ∈ flatSearch ((secs.map sectionText).map embed) (embed query) top_k, 0 ≤ p.2 →
      p.2.toNat < secs.length ∧
      scoreEntry (secs.map sectionText) p =
        .ok ("[Score: " ++ fmt2 p.1 ++ "]\n" ++ (secs.map sectionText).getD p.2.toNat "") := by
  constructor
  · simp
  · intro p hp h0
    rcases flatSearch_mem _ _ _ _ hp with ⟨_, hlt, _⟩ | ⟨rfl, _⟩
    · have hlt2 : p.2.toNat < (secs.map sectionText).length := by simpa using hlt
      refine ⟨by simpa using hlt, ?_⟩
      rw [scoreEntry_eq_ok (secs.map sectionText) p (Or.inl ⟨h0, hlt2⟩)]
      simp only [entryStr, if_neg (not_lt.2 h0)]
    · exact absurd h0 (by decide)

/-- Witness for the amended C8 at a concrete oversized document. -/
theorem embeddings_count_and_index_mapping_witness :
    threshold_chars < (fullText twoSecs).length ∧
    (((twoSecs.map sectionText).map embedLen).length = twoSecs.length ∧
    ∀ p ∈ flatSearch ((twoSecs.map sectionText).map embedLen) (embedLen "q") top_k, 0 ≤ p.2 →
      p.2.toNat < twoSecs.length ∧
      scoreEntry (twoSecs.map sectionText) p =
        .ok ("[Score: " ++ fmt2 p.1 ++ "]\n" ++ (twoSecs.map sectionText).getD p.2.toNat "")) :=
  ⟨fullText_twoSecs_big, embeddings_count_and_index_mapping _ _ _ fullText_twoSecs_big⟩

/-- Claim C9: every run returns a string to the caller: either the body
finished normally and its value is returned as-is, or the body raised
and the tool returns the descriptive `"Error fetching guide: ..."`
message — no exception escapes. -/
theorem retrieve_never_raises (embed : String → List ℚ) (faiss : Bool)
    (page : Except String (Option (List GuideSection))) (gid query : String) :
    (∃ s, (fetchBody embed faiss page gid query).result = .ok s ∧
      fetch_steam_guide embed faiss page gid query = s) ∨
    (∃ e, (fetchBody embed faiss page gid query).result = .error e ∧
      fetch_steam_guide embed faiss page gid query = "Error fetching guide: " ++ e) := by
  rcases hr : (fetchBody embed faiss page gid query).result with e | s
  · exact Or.inr ⟨e, rfl, by simp only [fetch_steam_guide, hr]⟩
  · exact Or.inl ⟨s, rfl, by simp only [fetch_steam_guide, hr]⟩

/-- Claim C10: a document at or below the threshold is returned in full
even when FAISS is unavailable — the availability check sits on the
search branch, after the size test. -/
theorem small_doc_ignores_backend (embed : String → List ℚ) (secs : List GuideSection)
    (gid query : String) (h : (fullText secs).length ≤ threshold_chars) :
    fetch_steam_guide embed false (.ok (some secs)) gid query = fullText secs := by
  simp only [fetch_steam_guide]
  rw [fetchBody_small _ _ _ _ _ h]

/-- Witness for C10 at a concrete small document with FAISS absent. -/
theorem small_doc_ignores_backend_witness :
    (fullText [⟨none, some "hello"⟩]).length ≤ threshold_chars ∧
    fetch_steam_guide (fun _ => [0]) false (.ok (some [⟨none, some "hello"⟩])) "g" "q" =
      fullText [⟨none, some "hello"⟩] :=
  ⟨by decide, small_doc_ignores_backend _ _ _ _ (by decide)⟩

end SteamMCP
